import Mathlib

/-!
Verification of the Nearmap cost-estimator core (fallback cost loop and
area estimator) against its natural-language specification.

The embedding follows `src/main.py`:
* `all_tuples` is the inline priced resource catalog returned by
  `get_all_resources()` under key `all_tuples` (an association list of
  key → catalog entry, keys unique).
* `costStep` / `runCostLoop` / `estimateCost` embed the `INVALID_AREA`
  fallback loop (`main.py` lines 459–476): iterate `selected_resources`,
  look each key up in the catalog (a missing key raises, modelled as
  `Except.error`), derive the namespace as the prefix before the first
  `:`, pick the unit cost by capture mode, and add
  `round(unit_cost * area_sqm / 1000)` per resource, with at most 7
  `aiPacks`-namespace resources contributing.
* `pyRound` is Python 3 `round` on exact rationals: round half to even.
* `Json`, `Json.getKey`, `shape`, `estimateAreaBody` and `estimate_area`
  embed `OtherHelpers.estimate_area` (`main.py` 310–340, identical to
  `BoxDrawer.estimate_area` in `map_helper.py` 283–316): the body reads
  the `geometry` member of `geojson_feature`, parses it as a geometry, projects and
  measures it; the whole body sits in `try/except Exception` returning
  `0.0` on any failure. The centroid/Albers-projection/transform/area
  pipeline (shapely + pyproj, floating point) is abstracted as an
  explicit `projectedArea` argument that may fail.
-/

/-- One entry of the priced catalog: the value of `all_tuples[key]` in
`NearMapHelper.get_all_resources()` (`main.py` 82–218). Field names follow
the `ResourceCatalogEntry` of the spec; the dict keys in the source are
`"Credits (single survey)"`, `"Credits (all survey data)"` and
`"matched_content_type"`. -/
structure ResourceEntry where
  creditsPerSingleSurvey : ℚ
  creditsPerAllSurveyData : ℚ
  matched_content_type : String
deriving DecidableEq

/-- The inline catalog `all_tuples` of `get_all_resources()` from
`main.py` 82–218, as an association list (Python dict with unique keys). -/
def all_tuples : List (String × ResourceEntry) :=
  [ ("raster:Vert", ⟨10, 15.0, "Vertical"⟩),
    ("raster:DetailDtm", ⟨20, 30.0, "DEM/DTM"⟩),
    ("raster:DetailDsm", ⟨30, 45.0, "DSM"⟩),
    ("raster:TrueOrtho", ⟨20, 30.0, "True Ortho"⟩),
    ("raster:North", ⟨4, 6.0, "Panorama (north)"⟩),
    ("raster:East", ⟨4, 6.0, "Panorama (east)"⟩),
    ("raster:South", ⟨4, 6.0, "Panorama (south)"⟩),
    ("raster:West", ⟨4, 6.0, "Panorama (west)"⟩),
    ("aiPacks:building", ⟨5, 7.5, "AI (1 pack)"⟩),
    ("aiPacks:building_char", ⟨5, 7.5, "AI (1 pack)"⟩),
    ("aiPacks:construction", ⟨5, 7.5, "AI (1 pack)"⟩),
    ("aiPacks:debris", ⟨5, 7.5, "AI (1 pack)"⟩),
    ("aiPacks:pavement_marking", ⟨5, 7.5, "AI (1 pack)"⟩),
    ("aiPacks:poles", ⟨5, 7.5, "AI (1 pack)"⟩),
    ("aiPacks:pool", ⟨5, 7.5, "AI (1 pack)"⟩),
    ("aiPacks:postcat", ⟨5, 7.5, "AI (1 pack)"⟩),
    ("aiPacks:roof_char", ⟨5, 7.5, "AI (1 pack)"⟩),
    ("aiPacks:roof_cond", ⟨5, 7.5, "AI (1 pack)"⟩),
    ("aiPacks:roof_objects", ⟨5, 7.5, "AI (1 pack)"⟩),
    ("aiPacks:solar", ⟨5, 7.5, "AI (1 pack)"⟩),
    ("aiPacks:surface_permeability", ⟨5, 7.5, "AI (1 pack)"⟩),
    ("aiPacks:surfaces", ⟨5, 7.5, "AI (1 pack)"⟩),
    ("aiPacks:trampoline", ⟨5, 7.5, "AI (1 pack)"⟩),
    ("aiPacks:vegetation", ⟨5, 7.5, "AI (1 pack)"⟩),
    ("trueOrthoAiPacks:building", ⟨5, 7.5, "AI (1 pack)"⟩),
    ("trueOrthoAiPacks:building_char", ⟨5, 7.5, "AI (1 pack)"⟩),
    ("aiImpactAssessment:postcat", ⟨35, 52.5, "Nearmap ImpactAssessment AI"⟩) ]

/-- Python dict access `all_resources[resource]` on an association list:
first (only, keys being unique) entry with the given key, `none` when the
key is absent (Python raises `KeyError`). -/
def lookupResource (k : String) : List (String × ResourceEntry) → Option ResourceEntry
  | [] => none
  | (key, entry) :: rest => if k = key then some entry else lookupResource k rest

/-- Python 3 `round` to the nearest integer on exact rationals:
round half to even (bankers rounding). -/
def pyRound (x : ℚ) : ℤ :=
  let n := Rat.floor x
  let frac := x - n
  if frac < 1 / 2 then n
  else if 1 / 2 < frac then n + 1
  else if n % 2 = 0 then n else n + 1

/-- `resource.split(":")[0]` from `main.py` 466: the namespace is the
prefix of the key before the first colon (the whole key when there is
no colon). -/
def namespaceOf (resource : String) : String :=
  String.mk (resource.data.takeWhile (fun c => c ≠ ':'))

/-- `main.py` 467: unit cost is `Credits (single survey)` when
`dates_single == "single"`, else `Credits (all survey data)`. -/
def unitCostOf (entry : ResourceEntry) (dates_single : String) : ℚ :=
  if dates_single = "single" then entry.creditsPerSingleSurvey
  else entry.creditsPerAllSurveyData

/-- The per-resource contribution `round(unit_cost*area_sqm/1000)`
(`main.py` 469 and 472). -/
def contribution (entry : ResourceEntry) (dates_single : String) (area_sqm : ℚ) : ℤ :=
  pyRound (unitCostOf entry dates_single * area_sqm / 1000)

/-- One iteration of the fallback cost loop (`main.py` 464–474) on the
state `(total_cost, ai_counter)`; a key absent from the catalog raises
(`KeyError`), modelled as `Except.error` carrying the key, and an error
state is final (the exception aborts the loop). -/
def costStep (dates_single : String) (area_sqm : ℚ)
    (st : Except String (ℤ × ℕ)) (resource : String) : Except String (ℤ × ℕ) :=
  match st with
  | .error e => .error e
  | .ok (total_cost, ai_counter) =>
    match lookupResource resource all_tuples with
    | none => .error resource
    | some resource_object =>
      let unit_cost := unitCostOf resource_object dates_single
      if namespaceOf resource ≠ "aiPacks" then
        .ok (total_cost + pyRound (unit_cost * area_sqm / 1000), ai_counter)
      else if ai_counter < 7 then
        .ok (total_cost + pyRound (unit_cost * area_sqm / 1000), ai_counter + 1)
      else
        .ok (total_cost, ai_counter)

/-- The fallback cost loop `for resource in selected_resources: ...`
(`main.py` 464–474) from an arbitrary starting state. -/
def runCostLoop (selected : List String) (dates_single : String) (area_sqm : ℚ)
    (st : Except String (ℤ × ℕ)) : Except String (ℤ × ℕ) :=
  selected.foldl (costStep dates_single area_sqm) st

/-- The whole fallback cost evaluation (`main.py` 460–476): start from
`total_cost = 0`, `ai_counter = 0`, run the loop, and the final
`total_cost` is stored as the estimate; a key absent from the catalog
raises instead of producing a total. -/
def estimateCost (selected : List String) (dates_single : String) (area_sqm : ℚ) :
    Except String ℤ :=
  (runCostLoop selected dates_single area_sqm (.ok (0, 0))).map Prod.fst

/-- A JSON-like value: the shape of the Python dict/list structures (parsed
GeoJSON) handed to `estimate_area`. Numbers are modelled as exact
rationals. -/
inductive Json where
  | null
  | bool (b : Bool)
  | num (q : ℚ)
  | str (s : String)
  | arr (elems : List Json)
  | obj (members : List (String × Json))

/-- First member of a JSON object with the given key (Python dict member
lookup; dict keys are unique). -/
def Json.lookupMember (key : String) : List (String × Json) → Option Json
  | [] => none
  | (k, v) :: rest => if key = k then some v else Json.lookupMember key rest

/-- Python subscript `value[key]`: fails (KeyError on a dict without the
key, TypeError on a non-dict) unless `value` is a dict containing `key`,
modelled as `Except.error`. -/
def Json.getKey (value : Json) (key : String) : Except String Json :=
  match value with
  | .obj members =>
    match Json.lookupMember key members with
    | some v => .ok v
    | none => .error key
  | _ => .error key

/-- A parsed polygon geometry: the rings (exterior first, then holes) of
`(longitude, latitude)` vertices produced by `shapely.geometry.shape` on a
GeoJSON `Polygon`. -/
structure PolygonGeom where
  rings : List (List (ℚ × ℚ))

/-- One GeoJSON position `[lon, lat, ...]` as a coordinate pair; anything
else fails. -/
def parsePosition : Json → Except String (ℚ × ℚ)
  | .arr (.num x :: .num y :: _) => .ok (x, y)
  | _ => .error "invalid position"

/-- One GeoJSON linear ring: an array of positions. -/
def parseRing : Json → Except String (List (ℚ × ℚ))
  | .arr positions => positions.mapM parsePosition
  | _ => .error "invalid ring"

/-- The call `shapely.geometry.shape` on the geometry dict as used by
`estimate_area` (`main.py` 323): reads the `type` and `coordinates`
members of the geometry dict and builds a polygon; a missing member
(KeyError) or a geometry type that cannot be handled raises, modelled as
`Except.error`. -/
def shape (geometry : Json) : Except String PolygonGeom := do
  let t ← geometry.getKey "type"
  match t with
  | .str "Polygon" => do
    let coords ← geometry.getKey "coordinates"
    match coords with
    | .arr rings => do
      let rs ← rings.mapM parseRing
      return ⟨rs⟩
    | _ => .error "invalid coordinates"
  | _ => .error "unsupported geometry type"

/-- The body of the `try` block of `OtherHelpers.estimate_area`
(`main.py` 321–336): read the `geometry` member of the feature, parse it
with `shape`, then compute the projected planar area. The
centroid/Albers-projection/coordinate-transform/area pipeline
(shapely + pyproj, floating point, `main.py` 326–336) is abstracted as
the `projectedArea` argument, an arbitrary computation that may itself
fail with any exception. -/
def estimateAreaBody (geojson_feature : Json)
    (projectedArea : PolygonGeom → Except String ℚ) : Except String ℚ := do
  let geom ← geojson_feature.getKey "geometry"
  let poly ← shape geom
  projectedArea poly

/-- `OtherHelpers.estimate_area` (`main.py` 310–340, same code as
`BoxDrawer.estimate_area` in `map_helper.py` 283–316): the whole body is
wrapped in `try/except Exception`, and any failure yields `0.0`. -/
def estimate_area (geojson_feature : Json)
    (projectedArea : PolygonGeom → Except String ℚ) : ℚ :=
  match estimateAreaBody geojson_feature projectedArea with
  | .ok area => area
  | .error _ => 0.0

/-- A feature whose geometry dict lacks the `coordinates` member. -/
def featureMissingCoordinates : Json :=
  .obj [("type", .str "Feature"), ("properties", .obj []),
        ("geometry", .obj [("type", .str "Polygon")])]

/-- A feature whose geometry has a type that cannot be projected. -/
def featureUnknownGeometryType : Json :=
  .obj [("type", .str "Feature"), ("properties", .obj []),
        ("geometry", .obj [("type", .str "Frisbee"), ("coordinates", .arr [])])]

/-- A concrete polygon geometry (a triangle near Melbourne). -/
def geomPolygonJson : Json :=
  .obj [("type", .str "Polygon"),
        ("coordinates", .arr [ .arr
          [ .arr [.num 144, .num 37], .arr [.num 145, .num 37],
            .arr [.num 145, .num 38], .arr [.num 144, .num 37] ] ])]

/-- A feature carrying `geomPolygonJson` with empty properties. -/
def featurePlain : Json :=
  .obj [("type", .str "Feature"), ("properties", .obj []),
        ("geometry", geomPolygonJson)]

/-- The same geometry as `featurePlain` but different `properties` and an
extra member. -/
def featureDecorated : Json :=
  .obj [("type", .str "Feature"),
        ("properties", .obj [("name", .str "decorated")]),
        ("geometry", geomPolygonJson),
        ("extra", .num 1)]

/-- A concrete stand-in for the projection pipeline: always succeeds with
a fixed area. -/
def constProjectedArea : PolygonGeom → Except String ℚ := fun _ => .ok 12345

/-- The catalog entry shared by every `aiPacks`-namespace resource. -/
def aiPackEntry : ResourceEntry := ⟨5, 7.5, "AI (1 pack)"⟩

/-- Whether a key belongs to the capped `aiPacks` namespace. -/
def isAiPacksKey (k : String) : Bool := namespaceOf k = "aiPacks"

/-- The per-resource contribution of a key that is not in the `aiPacks`
namespace (`0` for `aiPacks` keys and for keys absent from the
catalog). -/
def nonAiContribution (dates_single : String) (area_sqm : ℚ) (k : String) : ℤ :=
  if namespaceOf k = "aiPacks" then 0
  else
    match lookupResource k all_tuples with
    | some e => contribution e dates_single area_sqm
    | none => 0

/-- The contribution of any (uniformly priced) `aiPacks` resource. -/
def aiContribution (dates_single : String) (area_sqm : ℚ) : ℤ :=
  contribution aiPackEntry dates_single area_sqm

/-- Eight distinct `aiPacks`-namespace keys, in catalog order. -/
def eightAiPacks : List String :=
  ["aiPacks:building", "aiPacks:building_char", "aiPacks:construction",
   "aiPacks:debris", "aiPacks:pavement_marking", "aiPacks:poles",
   "aiPacks:pool", "aiPacks:postcat"]

/-- The first seven of `eightAiPacks`. -/
def sevenAiPacks : List String := eightAiPacks.take 7

deriving instance DecidableEq for Except

/-! ### Helper lemmas -/

/-- The Batteries rational floor agrees with the Mathlib floor. -/
theorem ratFloor_eq_intFloor (x : ℚ) : Rat.floor x = ⌊x⌋ := by
  rw [Rat.floor_def', ← Rat.floor_def]

/-- Python `round` is the identity on integers. -/
theorem pyRound_intCast (n : ℤ) : pyRound (n : ℚ) = n := by
  unfold pyRound
  rw [ratFloor_eq_intFloor, Int.floor_intCast]
  norm_num

/-- A successful association-list lookup comes from a member of the
list. -/
theorem lookupResource_mem :
    ∀ (l : List (String × ResourceEntry)) (k : String) (e : ResourceEntry),
      lookupResource k l = some e → (k, e) ∈ l
  | [], k, e, h => by simp [lookupResource] at h
  | (key, entry) :: rest, k, e, h => by
    by_cases hk : k = key
    · subst hk
      have hent : entry = e := by simpa [lookupResource] using h
      subst hent
      exact List.mem_cons_self _ _
    · simp only [lookupResource, if_neg hk] at h
      exact List.mem_cons_of_mem _ (lookupResource_mem rest k e h)

/-- Every catalog entry whose key is in the `aiPacks` namespace carries
the same price data (5 credits single, 7.5 all). -/
theorem aiPacks_entries_uniform :
    ∀ p ∈ all_tuples, namespaceOf p.1 = "aiPacks" → p.2 = aiPackEntry := by
  with_unfolding_all decide

/-- The catalog entry of any `aiPacks`-namespace key is `aiPackEntry`. -/
theorem lookup_aiPacks_entry {k : String} {e : ResourceEntry}
    (h : lookupResource k all_tuples = some e)
    (hns : namespaceOf k = "aiPacks") : e = aiPackEntry :=
  aiPacks_entries_uniform (k, e) (lookupResource_mem _ _ _ h) hns

/-- An error state is final: once a lookup has failed, the loop result is
that error. -/
theorem runCostLoop_error_state (l : List String) (mode : String) (area : ℚ)
    (e : String) : runCostLoop l mode area (.error e) = .error e := by
  induction l with
  | nil => rfl
  | cons k rest ih => simpa [runCostLoop, costStep] using ih

/-- Processing a key present in the catalog never produces an error
state. -/
theorem costStep_ok_of_present {k : String} {e : ResourceEntry}
    (mode : String) (area : ℚ) (t : ℤ) (c : ℕ)
    (h : lookupResource k all_tuples = some e) :
    ∃ t2 c2, costStep mode area (.ok (t, c)) k = .ok (t2, c2) := by
  simp only [costStep, h]
  split
  · exact ⟨_, _, rfl⟩
  · split
    · exact ⟨_, _, rfl⟩
    · exact ⟨_, _, rfl⟩

/-- Closed form of the fallback loop on a selection whose keys are all in
the catalog: the non-`aiPacks` contributions all accumulate, and exactly
`min 7` of the (uniformly priced) `aiPacks` occurrences contribute, with
the final counter saturating at 7. -/
theorem runCostLoop_closed (mode : String) (area : ℚ) :
    ∀ (l : List String) (t : ℤ) (c : ℕ), c ≤ 7 →
      (∀ k ∈ l, (lookupResource k all_tuples).isSome) →
      runCostLoop l mode area (.ok (t, c)) =
        .ok (t + (l.map (nonAiContribution mode area)).sum
               + ((min 7 (c + l.countP isAiPacksKey) - c : ℕ) : ℤ)
                   * aiContribution mode area,
             min 7 (c + l.countP isAiPacksKey)) := by
  intro l
  induction l with
  | nil =>
    intro t c hc _
    have hmin : min 7 (c + ([] : List String).countP isAiPacksKey) = c := by
      simp only [List.countP_nil, Nat.add_zero]
      omega
    rw [runCostLoop]
    simp only [List.foldl_nil, hmin, Nat.sub_self, Nat.cast_zero, zero_mul,
      List.map_nil, List.sum_nil, add_zero]
  | cons k rest ih =>
    intro t c hc hpres
    have hk : (lookupResource k all_tuples).isSome :=
      hpres k (List.mem_cons_self _ _)
    obtain ⟨e, he⟩ := Option.isSome_iff_exists.mp hk
    have hrest : ∀ x ∈ rest, (lookupResource x all_tuples).isSome :=
      fun x hx => hpres x (List.mem_cons_of_mem _ hx)
    by_cases hns : namespaceOf k = "aiPacks"
    · have hent : e = aiPackEntry := lookup_aiPacks_entry he hns
      subst hent
      have hnonai : nonAiContribution mode area k = 0 := by
        simp [nonAiContribution, hns]
      have hcount : isAiPacksKey k = true := by
        simp [isAiPacksKey, hns]
      by_cases hlt : c < 7
      · have hstep : costStep mode area (.ok (t, c)) k =
            .ok (t + aiContribution mode area, c + 1) := by
          simp [costStep, he, hns, hlt, aiContribution, contribution]
        have := ih (t + aiContribution mode area) (c + 1) (by omega) hrest
        rw [runCostLoop, List.foldl_cons, hstep]
        rw [runCostLoop] at this
        rw [this]
        have hcnt : (k :: rest).countP isAiPacksKey =
            rest.countP isAiPacksKey + 1 := by
          simp [List.countP_cons, hcount]
        rw [hcnt]
        have hmineq : min 7 (c + 1 + rest.countP isAiPacksKey) =
            min 7 (c + (rest.countP isAiPacksKey + 1)) := by omega
        have hco : ((min 7 (c + 1 + rest.countP isAiPacksKey)
              - (c + 1) : ℕ) : ℤ) + 1 =
            ((min 7 (c + (rest.countP isAiPacksKey + 1)) - c : ℕ) : ℤ) := by
          omega
        refine congrArg Except.ok (Prod.ext ?_ ?_)
        · show t + aiContribution mode area
              + (rest.map (nonAiContribution mode area)).sum
              + _ * aiContribution mode area
            = t + ((k :: rest).map (nonAiContribution mode area)).sum
              + _ * aiContribution mode area
          rw [List.map_cons, List.sum_cons, hnonai]
          linear_combination (aiContribution mode area) * hco
        · show min 7 (c + 1 + rest.countP isAiPacksKey) =
            min 7 (c + (rest.countP isAiPacksKey + 1))
          omega
      · have hc7 : c = 7 := by omega
        subst hc7
        have hstep : costStep mode area (.ok (t, 7)) k = .ok (t, 7) := by
          simp [costStep, he, hns]
        have := ih t 7 (by omega) hrest
        rw [runCostLoop, List.foldl_cons, hstep]
        rw [runCostLoop] at this
        rw [this]
        have hcnt : (k :: rest).countP isAiPacksKey =
            rest.countP isAiPacksKey + 1 := by
          simp [List.countP_cons, hcount]
        rw [hcnt]
        refine congrArg Except.ok (Prod.ext ?_ ?_)
        · show t + (rest.map (nonAiContribution mode area)).sum
              + ((min 7 (7 + rest.countP isAiPacksKey) - 7 : ℕ) : ℤ)
                  * aiContribution mode area
            = t + ((k :: rest).map (nonAiContribution mode area)).sum
              + ((min 7 (7 + (rest.countP isAiPacksKey + 1)) - 7 : ℕ) : ℤ)
                  * aiContribution mode area
          rw [List.map_cons, List.sum_cons, hnonai]
          have h1 : min 7 (7 + rest.countP isAiPacksKey) - 7 = 0 := by omega
          have h2 : min 7 (7 + (rest.countP isAiPacksKey + 1)) - 7 = 0 := by
            omega
          rw [h1, h2]
          push_cast
          ring
        · show min 7 (7 + rest.countP isAiPacksKey) =
            min 7 (7 + (rest.countP isAiPacksKey + 1))
          omega
    · have hstep : costStep mode area (.ok (t, c)) k =
          .ok (t + contribution e mode area, c) := by
        simp [costStep, he, hns, contribution]
      have hnonai : nonAiContribution mode area k = contribution e mode area := by
        simp [nonAiContribution, hns, he]
      have hcount : isAiPacksKey k = false := by
        simp [isAiPacksKey, hns]
      have := ih (t + contribution e mode area) c hc hrest
      rw [runCostLoop, List.foldl_cons, hstep]
      rw [runCostLoop] at this
      rw [this]
      have hcnt : (k :: rest).countP isAiPacksKey = rest.countP isAiPacksKey := by
        simp [List.countP_cons, hcount]
      rw [hcnt]
      refine congrArg Except.ok (Prod.ext ?_ rfl)
      show t + contribution e mode area
          + (rest.map (nonAiContribution mode area)).sum
          + _ * aiContribution mode area
        = t + ((k :: rest).map (nonAiContribution mode area)).sum
          + _ * aiContribution mode area
      rw [List.map_cons, List.sum_cons, hnonai]
      ring

/-- Closed form of the whole cost evaluation on all-present
selections. -/
theorem estimateCost_closed (l : List String) (mode : String) (area : ℚ)
    (hpres : ∀ k ∈ l, (lookupResource k all_tuples).isSome) :
    estimateCost l mode area =
      .ok ((l.map (nonAiContribution mode area)).sum
           + ((min 7 (l.countP isAiPacksKey) : ℕ) : ℤ)
               * aiContribution mode area) := by
  unfold estimateCost
  rw [runCostLoop_closed mode area l 0 0 (by omega) hpres]
  simp [Except.map]

/-- The total of the fallback cost evaluation is invariant under
reordering of an all-present selection (every `aiPacks` catalog entry
carries the same price, so which occurrences are capped cannot change
the total). -/
theorem estimateCost_perm (l1 l2 : List String) (mode : String) (area : ℚ)
    (hperm : l1.Perm l2)
    (hpres : ∀ k ∈ l1, (lookupResource k all_tuples).isSome) :
    estimateCost l1 mode area = estimateCost l2 mode area := by
  have hpres2 : ∀ k ∈ l2, (lookupResource k all_tuples).isSome :=
    fun k hk => hpres k (hperm.mem_iff.mpr hk)
  rw [estimateCost_closed l1 mode area hpres,
      estimateCost_closed l2 mode area hpres2,
      hperm.countP_eq isAiPacksKey,
      (hperm.map (nonAiContribution mode area)).sum_eq]

/-- A selection containing a key absent from the catalog always ends in
an error naming an absent key. -/
theorem runCostLoop_absent_key :
    ∀ (l : List String) (t : ℤ) (c : ℕ) (mode : String) (area : ℚ)
      (k : String), k ∈ l → lookupResource k all_tuples = none →
      ∃ r, runCostLoop l mode area (.ok (t, c)) = .error r ∧
        lookupResource r all_tuples = none
  | [], t, c, mode, area, k, hk, _ => absurd hk (List.not_mem_nil k)
  | k0 :: rest, t, c, mode, area, k, hk, habs => by
    cases hlook : lookupResource k0 all_tuples with
    | none =>
      refine ⟨k0, ?_, hlook⟩
      have hstep : costStep mode area (.ok (t, c)) k0 = .error k0 := by
        simp [costStep, hlook]
      rw [runCostLoop, List.foldl_cons, hstep]
      exact runCostLoop_error_state rest mode area k0
    | some e =>
      have hne : k ≠ k0 := by
        intro h
        subst h
        rw [habs] at hlook
        exact Option.noConfusion hlook
      have hkrest : k ∈ rest := by
        rcases List.mem_cons.mp hk with h | h
        · exact absurd h hne
        · exact h
      obtain ⟨t2, c2, hstep⟩ := costStep_ok_of_present mode area t c hlook
      rw [runCostLoop, List.foldl_cons, hstep]
      exact runCostLoop_absent_key rest t2 c2 mode area k hkrest habs

/-! ### Claim theorems -/

/-- C1: for the selection of 8 distinct aiPacks-namespace keys (unit
cost 5, capture mode single, area 1000 m²), each of the first 7 keys in
iteration order contributes `round(5*1000/1000) = 5` (running totals
`5*i`), the 8th contributes 0, and the total is 35; in general, an
aiPacks-namespace contribution is added exactly when the counter is
strictly below 7, the counter is incremented exactly when a contribution
is added, and capped keys are skipped silently with no error. -/
theorem aiPacks_cap_first_seven :
    (∀ i : ℕ, i ≤ 7 →
      estimateCost (eightAiPacks.take i) "single" 1000 = .ok (5 * i)) ∧
    estimateCost eightAiPacks "single" 1000 = .ok 35 ∧
    (∀ (resource : String) (entry : ResourceEntry) (total : ℤ) (c : ℕ)
       (mode : String) (area : ℚ),
      lookupResource resource all_tuples = some entry →
      namespaceOf resource = "aiPacks" →
      costStep mode area (.ok (total, c)) resource =
        if c < 7 then .ok (total + contribution entry mode area, c + 1)
        else .ok (total, c)) := by
  refine ⟨?_, by with_unfolding_all decide, ?_⟩
  · intro i hi
    interval_cases i <;> with_unfolding_all decide
  · intro resource entry total c mode area hlook hns
    by_cases hlt : c < 7
    · rw [if_pos hlt]
      simp [costStep, hlook, hns, hlt, contribution]
    · rw [if_neg hlt]
      simp [costStep, hlook, hns, hlt]

/-- Witness for C1: the running total after 3 aiPacks keys, and a capped
step (counter already 7) that silently leaves state unchanged. -/
theorem aiPacks_cap_first_seven_witness :
    estimateCost (eightAiPacks.take 3) "single" 1000 = .ok (5 * 3) ∧
    costStep "single" 1000 (.ok (0, 7)) "aiPacks:building" = .ok (0, 7) := by
  constructor
  · exact aiPacks_cap_first_seven.1 3 (by decide)
  · have h := aiPacks_cap_first_seven.2.2 "aiPacks:building" aiPackEntry 0 7
      "single" 1000 (by with_unfolding_all decide) (by decide)
    simpa using h

/-- C2 counterexample: at capture mode single and area 5000 m², resource
raster:Vert (flat unit cost 10 credits) is charged 50 credits: the
evaluator charges the proportional per-1000 m² cost with no per-request
minimum, so a contribution exceeds the flat unit cost, refuting the
claim that the charge is the lesser of the two (never exceeding the unit
cost). -/
theorem contribution_min_rule_counterexample :
    estimateCost ["raster:Vert"] "single" 5000 = .ok 50 ∧
    unitCostOf ⟨10, 15.0, "Vertical"⟩ "single" = 10 ∧
    ¬ (50 : ℤ) ≤ 10 :=
  ⟨by with_unfolding_all decide, by with_unfolding_all decide, by decide⟩

/-- C2 (amended): the contribution charged for a selected resource is
always the proportional cost `round(unitCost * areaSqm / 1000)`; no flat
per-request minimum is applied, so the contribution can exceed the unit
cost when the area exceeds 1000 m². -/
theorem single_resource_contribution_proportional
    (k : String) (entry : ResourceEntry) (mode : String) (area : ℚ)
    (hlook : lookupResource k all_tuples = some entry) :
    estimateCost [k] mode area =
      .ok (pyRound (unitCostOf entry mode * area / 1000)) := by
  have h07 : (0 : ℕ) < 7 := by omega
  unfold estimateCost runCostLoop
  by_cases hns : namespaceOf k = "aiPacks" <;>
    simp [costStep, hlook, hns, h07, Except.map]

/-- Witness for C2 (amended) at raster:Vert, single, 5000 m². -/
theorem single_resource_contribution_proportional_witness :
    estimateCost ["raster:Vert"] "single" 5000 =
      .ok (pyRound (unitCostOf ⟨10, 15.0, "Vertical"⟩ "single" * 5000 / 1000)) :=
  single_resource_contribution_proportional "raster:Vert"
    ⟨10, 15.0, "Vertical"⟩ "single" 5000 (by with_unfolding_all decide)

/-- C3: the cap of 7 applies only to keys whose namespace (prefix before
the first colon) is exactly `aiPacks`. With 7 aiPacks keys already
contributing (counter saturated), `trueOrthoAiPacks:building` and
`aiImpactAssessment:postcat` still add their full contributions (5 and
35 at single / 1000 m²) for a total of 75; in general, a key whose
namespace is not `aiPacks` takes the unconditional branch and
contributes at any counter value. -/
theorem cap_only_for_aiPacks_namespace :
    estimateCost (sevenAiPacks ++
        ["trueOrthoAiPacks:building", "aiImpactAssessment:postcat"])
      "single" 1000 = .ok (35 + 5 + 35) ∧
    estimateCost sevenAiPacks "single" 1000 = .ok 35 ∧
    (∀ (resource : String) (entry : ResourceEntry) (total : ℤ) (c : ℕ)
       (mode : String) (area : ℚ),
      lookupResource resource all_tuples = some entry →
      namespaceOf resource ≠ "aiPacks" →
      costStep mode area (.ok (total, c)) resource =
        .ok (total + contribution entry mode area, c)) := by
  refine ⟨by with_unfolding_all decide, by with_unfolding_all decide, ?_⟩
  intro resource entry total c mode area hlook hns
  simp [costStep, hlook, hns, contribution]

/-- Witness for C3: an uncapped step of `aiImpactAssessment:postcat` at a
saturated counter. -/
theorem cap_only_for_aiPacks_namespace_witness :
    costStep "single" 1000 (.ok (35, 7)) "aiImpactAssessment:postcat" =
      .ok (35 + contribution ⟨35, 52.5, "Nearmap ImpactAssessment AI"⟩
              "single" 1000, 7) :=
  cap_only_for_aiPacks_namespace.2.2 "aiImpactAssessment:postcat"
    ⟨35, 52.5, "Nearmap ImpactAssessment AI"⟩ 35 7 "single" 1000
    (by with_unfolding_all decide) (by decide)

/-- C4: every selected key present in the catalog contributes
`round(unitCost * areaSqm / 1000)`, where unitCost is the single-survey
price when capture mode is single and the all-survey price otherwise;
the rounding is one consistent rule (round half to even), applied per
resource rather than to the running total; concretely `raster:Vert` at
single / 5000 m² contributes `round(10*5000/1000) = 50`. -/
theorem per_resource_rounding :
    estimateCost ["raster:Vert"] "single" 5000 = .ok 50 ∧
    (pyRound (1 / 2) = 0 ∧ pyRound (3 / 2) = 2 ∧ pyRound (5 / 2) = 2 ∧
      pyRound (7 / 2) = 4) ∧
    (∀ (resource : String) (entry : ResourceEntry) (total : ℤ) (c : ℕ)
       (mode : String) (area : ℚ),
      lookupResource resource all_tuples = some entry →
      ∃ c2, costStep mode area (.ok (total, c)) resource =
        .ok (total +
          (if namespaceOf resource ≠ "aiPacks" ∨ c < 7
           then pyRound (unitCostOf entry mode * area / 1000) else 0),
          c2)) := by
  refine ⟨by with_unfolding_all decide, by with_unfolding_all decide, ?_⟩
  intro resource entry total c mode area hlook
  by_cases hns : namespaceOf resource = "aiPacks"
  · by_cases hlt : c < 7
    · refine ⟨c + 1, ?_⟩
      rw [if_pos (Or.inr hlt)]
      simp [costStep, hlook, hns, hlt]
    · refine ⟨c, ?_⟩
      have hcond : ¬ (namespaceOf resource ≠ "aiPacks" ∨ c < 7) := by
        push_neg
        exact ⟨hns, by omega⟩
      rw [if_neg hcond]
      simp [costStep, hlook, hns, hlt]
  · refine ⟨c, ?_⟩
    rw [if_pos (Or.inl hns)]
    simp [costStep, hlook, hns]

/-- Witness for C4: the per-resource rounded contribution of raster:Vert
at single / 5000 m². -/
theorem per_resource_rounding_witness :
    ∃ c2, costStep "single" 5000 (.ok (0, 0)) "raster:Vert" =
      .ok (0 +
        (if namespaceOf "raster:Vert" ≠ "aiPacks" ∨ 0 < 7
         then pyRound (unitCostOf ⟨10, 15.0, "Vertical"⟩ "single" * 5000 / 1000)
         else 0), c2) :=
  per_resource_rounding.2.2 "raster:Vert" ⟨10, 15.0, "Vertical"⟩ 0 0
    "single" 5000 (by with_unfolding_all decide)

/-- C5: `estimate_area` never raises: for every feature and every
behaviour of the projection pipeline, its result is either the
successful value of the try-block body or `0.0`; on the malformed
features (geometry missing the `coordinates` member; a geometry type
that cannot be projected) it returns `0.0` whatever the pipeline does. -/
theorem estimate_area_never_raises :
    (∀ (feature : Json) (projectedArea : PolygonGeom → Except String ℚ),
      estimate_area feature projectedArea = 0 ∨
      estimateAreaBody feature projectedArea =
        .ok (estimate_area feature projectedArea)) ∧
    (∀ projectedArea : PolygonGeom → Except String ℚ,
      estimate_area featureMissingCoordinates projectedArea = 0) ∧
    (∀ projectedArea : PolygonGeom → Except String ℚ,
      estimate_area featureUnknownGeometryType projectedArea = 0) := by
  refine ⟨?_, ?_, ?_⟩
  · intro feature projectedArea
    cases h : estimateAreaBody feature projectedArea with
    | ok a =>
      right
      simp [estimate_area, h]
    | error e =>
      left
      simp [estimate_area, h]
      norm_num
  · intro projectedArea
    with_unfolding_all rfl
  · intro projectedArea
    with_unfolding_all rfl

/-- C6: a selected key absent from the catalog makes the evaluator fail
fast with an invalid-input error naming an absent key — never a silent
skip and never a zero contribution in a returned total; concretely a
bogus key yields exactly that error. -/
theorem unknown_resource_key_fails :
    (∀ (l : List String) (mode : String) (area : ℚ) (k : String),
      k ∈ l → lookupResource k all_tuples = none →
      ∃ r, estimateCost l mode area = .error r ∧
        lookupResource r all_tuples = none) ∧
    estimateCost ["raster:Vert", "bogus:key"] "single" 1000 =
      .error "bogus:key" := by
  refine ⟨?_, by with_unfolding_all decide⟩
  intro l mode area k hk habs
  obtain ⟨r, hr, hrabs⟩ := runCostLoop_absent_key l 0 0 mode area k hk habs
  refine ⟨r, ?_, hrabs⟩
  unfold estimateCost
  rw [hr]
  rfl

/-- Witness for C6 on a one-element selection with an unknown key. -/
theorem unknown_resource_key_fails_witness :
    ∃ r, estimateCost ["bogus:key"] "single" 1000 = .error r ∧
      lookupResource r all_tuples = none :=
  unknown_resource_key_fails.1 ["bogus:key"] "single" 1000 "bogus:key"
    (by decide) (by with_unfolding_all decide)

/-- C7 (amended): on an all-present selection the final aiPacks counter
is `min 7` of the number of aiPacks-namespace occurrences — at most 7
contribute while every occurrence is considered exactly once — and,
every aiPacks catalog entry being priced identically, the total is
invariant under every reordering of the selection, including selections
with more than 7 aiPacks keys (only which occurrences are zeroed can
change, never the total). -/
theorem aiPacks_counter_and_reordering :
    (∀ (l : List String) (mode : String) (area : ℚ),
      (∀ k ∈ l, (lookupResource k all_tuples).isSome) →
      ∃ t, runCostLoop l mode area (.ok (0, 0)) =
        .ok (t, min 7 (l.countP isAiPacksKey))) ∧
    (∀ (l1 l2 : List String) (mode : String) (area : ℚ),
      l1.Perm l2 → (∀ k ∈ l1, (lookupResource k all_tuples).isSome) →
      estimateCost l1 mode area = estimateCost l2 mode area) := by
  constructor
  · intro l mode area hpres
    refine ⟨(l.map (nonAiContribution mode area)).sum
      + ((min 7 (l.countP isAiPacksKey) : ℕ) : ℤ)
          * aiContribution mode area, ?_⟩
    rw [runCostLoop_closed mode area l 0 0 (by omega) hpres]
    norm_num
  · exact estimateCost_perm

/-- C7 counterexample: the claim that the total is NOT invariant under
reordering when more than 7 aiPacks resources are selected fails on the
shipped catalog: for the concrete selection of 8 distinct aiPacks keys,
no permutation changes the result. -/
theorem reordering_invariance_counterexample :
    ¬ ∃ l : List String, l.Perm eightAiPacks ∧
      estimateCost l "single" 1000 ≠
        estimateCost eightAiPacks "single" 1000 := by
  rintro ⟨l, hperm, hne⟩
  have hpres : ∀ k ∈ eightAiPacks, (lookupResource k all_tuples).isSome := by
    with_unfolding_all decide
  exact hne (estimateCost_perm l eightAiPacks "single" 1000 hperm
    (fun k hk => hpres k (hperm.mem_iff.mp hk)))

/-- Witness for C7 on the 8-aiPacks selection and its reversal. -/
theorem aiPacks_counter_and_reordering_witness :
    (∃ t, runCostLoop eightAiPacks "single" 1000 (.ok (0, 0)) =
      .ok (t, min 7 (eightAiPacks.countP isAiPacksKey))) ∧
    estimateCost eightAiPacks.reverse "single" 1000 =
      estimateCost eightAiPacks "single" 1000 := by
  constructor
  · exact aiPacks_counter_and_reordering.1 eightAiPacks "single" 1000
      (by with_unfolding_all decide)
  · exact aiPacks_counter_and_reordering.2 eightAiPacks.reverse eightAiPacks
      "single" 1000 (List.reverse_perm eightAiPacks)
      (by with_unfolding_all decide)

/-- C8: every entry of the shipped catalog has a non-negative
single-survey price, an all-survey price at least the single-survey
price, and an all-survey price exactly 1.5 times the single-survey
price. -/
theorem catalog_credit_invariants :
    ∀ p ∈ all_tuples,
      0 ≤ p.2.creditsPerSingleSurvey ∧
      p.2.creditsPerSingleSurvey ≤ p.2.creditsPerAllSurveyData ∧
      p.2.creditsPerAllSurveyData = 3 / 2 * p.2.creditsPerSingleSurvey := by
  with_unfolding_all decide

/-- Witness for C8 at the first catalog entry. -/
theorem catalog_credit_invariants_witness :
    0 ≤ (ResourceEntry.mk 10 15.0 "Vertical").creditsPerSingleSurvey ∧
    (ResourceEntry.mk 10 15.0 "Vertical").creditsPerSingleSurvey ≤
      (ResourceEntry.mk 10 15.0 "Vertical").creditsPerAllSurveyData ∧
    (ResourceEntry.mk 10 15.0 "Vertical").creditsPerAllSurveyData =
      3 / 2 * (ResourceEntry.mk 10 15.0 "Vertical").creditsPerSingleSurvey :=
  catalog_credit_invariants ("raster:Vert", ⟨10, 15.0, "Vertical"⟩)
    (by with_unfolding_all decide)

/-- C9: duplicate keys in the selection are not deduplicated: n
occurrences of a non-aiPacks catalog key contribute n times its
per-resource contribution, each occurrence of an aiPacks key separately
consumes a cap slot so n occurrences contribute `min 7 n` times, and
concretely 8 copies of `aiPacks:building` at single / 1000 m² total 35
(7 contributions of 5). -/
theorem duplicate_keys_not_deduplicated :
    (∀ (k : String) (entry : ResourceEntry) (n : ℕ) (mode : String) (area : ℚ),
      lookupResource k all_tuples = some entry →
      namespaceOf k ≠ "aiPacks" →
      estimateCost (List.replicate n k) mode area =
        .ok (n * contribution entry mode area)) ∧
    (∀ (k : String) (entry : ResourceEntry) (n : ℕ) (mode : String) (area : ℚ),
      lookupResource k all_tuples = some entry →
      namespaceOf k = "aiPacks" →
      estimateCost (List.replicate n k) mode area =
        .ok (((min 7 n : ℕ) : ℤ) * contribution entry mode area)) ∧
    estimateCost (List.replicate 8 "aiPacks:building") "single" 1000 =
      .ok 35 := by
  refine ⟨?_, ?_, by with_unfolding_all decide⟩
  · intro k entry n mode area hlook hns
    have hpres : ∀ x ∈ List.replicate n k,
        (lookupResource x all_tuples).isSome := by
      intro x hx
      rw [List.eq_of_mem_replicate hx, hlook]
      rfl
    rw [estimateCost_closed _ mode area hpres]
    have hmap : (List.replicate n k).map (nonAiContribution mode area)
        = List.replicate n (contribution entry mode area) := by
      rw [List.map_replicate]
      congr 1
      simp [nonAiContribution, hns, hlook]
    have hcnt : (List.replicate n k).countP isAiPacksKey = 0 := by
      rw [List.countP_eq_zero]
      intro a ha
      rw [List.eq_of_mem_replicate ha]
      simp [isAiPacksKey, hns]
    rw [hmap, hcnt]
    simp [List.sum_replicate, nsmul_eq_mul]
  · intro k entry n mode area hlook hns
    have hent : entry = aiPackEntry := lookup_aiPacks_entry hlook hns
    subst hent
    have hpres : ∀ x ∈ List.replicate n k,
        (lookupResource x all_tuples).isSome := by
      intro x hx
      rw [List.eq_of_mem_replicate hx, hlook]
      rfl
    rw [estimateCost_closed _ mode area hpres]
    have hmap : (List.replicate n k).map (nonAiContribution mode area)
        = List.replicate n 0 := by
      rw [List.map_replicate]
      congr 1
      simp [nonAiContribution, hns]
    have hcnt : (List.replicate n k).countP isAiPacksKey = n := by
      have hall : ∀ a ∈ List.replicate n k, isAiPacksKey a := by
        intro a ha
        rw [List.eq_of_mem_replicate ha]
        simp [isAiPacksKey, hns]
      rw [List.countP_eq_length.mpr hall, List.length_replicate]
    rw [hmap, hcnt]
    simp [List.sum_replicate, aiContribution]
  
/-- Witness for C9: two copies of raster:Vert, and nine copies of
aiPacks:building of which only 7 contribute. -/
theorem duplicate_keys_not_deduplicated_witness :
    estimateCost (List.replicate 2 "raster:Vert") "single" 1000 =
      .ok (2 * contribution ⟨10, 15.0, "Vertical"⟩ "single" 1000) ∧
    estimateCost (List.replicate 9 "aiPacks:building") "single" 1000 =
      .ok (((min 7 9 : ℕ) : ℤ) * contribution aiPackEntry "single" 1000) := by
  constructor
  · exact duplicate_keys_not_deduplicated.1 "raster:Vert"
      ⟨10, 15.0, "Vertical"⟩ 2 "single" 1000
      (by with_unfolding_all decide) (by decide)
  · exact duplicate_keys_not_deduplicated.2.1 "aiPacks:building" aiPackEntry
      9 "single" 1000 (by with_unfolding_all decide) (by decide)

/-- C10: `estimate_area` reads only the `geometry` member of its input
feature: two features whose geometry lookups agree produce the same
result, whatever their other members and whatever the projection
pipeline does. -/
theorem estimate_area_depends_only_on_geometry
    (f1 f2 : Json) (projectedArea : PolygonGeom → Except String ℚ)
    (h : f1.getKey "geometry" = f2.getKey "geometry") :
    estimate_area f1 projectedArea = estimate_area f2 projectedArea := by
  unfold estimate_area estimateAreaBody
  rw [h]

/-- Witness for C10: the same geometry under different properties and an
extra member. -/
theorem estimate_area_depends_only_on_geometry_witness :
    estimate_area featurePlain constProjectedArea =
      estimate_area featureDecorated constProjectedArea :=
  estimate_area_depends_only_on_geometry featurePlain featureDecorated
    constProjectedArea (by rfl)
